import Mathlib

/-!
Verification model of the eCommerce recommendation engine.

The definitions below are a shallow embedding of the Python sources
`src/recommendation_engine.py` (class `HybridRecommender`) and
`src/ab_testing.py` (class `ABTestManager`):
* Python `float` is modelled as `Rat` (exact arithmetic);
* Python dicts whose iteration order matters are modelled as association
  lists in insertion order; `dict.get(k, 0)` becomes `lookupD`;
* a Python method that may `raise` is modelled with `Except String`;
  methods that mutate `self` thread the state explicitly;
* external collaborators are passed in as function parameters: the md5
  hash as a plain function (its distribution is irrelevant here), and
  scipy's `chi2_contingency` as an `Except`-valued function, because the
  real call can raise `ValueError` on degenerate tables and the source
  does not catch it; the numeric statistics it returns (possibly `nan`)
  are external data no property below depends on.
-/

deriving instance DecidableEq for Except

namespace RecEngine

/-- A producer's output: mapping item-id to relevance score
(`ScoreMap` in the specification, a Python dict in the source). -/
abbrev ScoreMap := List (String × Rat)

/-- First-match association-list lookup, the model of Python `dict[k]` /
`dict.get(k)` (dict keys are unique, so first match is the match). -/
def lookupK {α : Type} (l : List (String × α)) (k : String) : Option α :=
  match l.find? (fun p => p.1 == k) with
  | some p => some p.2
  | none => none

/-- Model of Python `dict.get(k, 0)`. -/
def lookupD (m : ScoreMap) (k : String) : Rat :=
  (lookupK m k).getD 0

/-- Order-preserving de-duplication (first occurrence kept), the model of
iterating a Python `set` built from a list of keys.  Python set iteration
order is unspecified; every property proved about it here is
order-independent, so a canonical order is fixed. -/
def dedupF (seen : List String) : List String → List String
  | [] => []
  | x :: xs => if x ∈ seen then dedupF seen xs else x :: dedupF (x :: seen) xs

/-- The descending-by-score comparison used by
`sorted(scores.items(), key=lambda x: x[1], reverse=True)`. -/
abbrev sortLe (a b : String × Rat) : Prop := b.2 ≤ a.2

instance : IsTotal (String × Rat) sortLe := ⟨fun a b => le_total b.2 a.2⟩

instance : IsTrans (String × Rat) sortLe := ⟨fun _ _ _ h1 h2 => le_trans h2 h1⟩

/-- Python's `sorted(..., key=lambda x: x[1], reverse=True)`: a stable
descending sort by score.  A stable sort is uniquely determined by the
comparison, so insertion sort with `sortLe` computes the same list. -/
def sortDesc (l : ScoreMap) : ScoreMap :=
  List.insertionSort sortLe l

/- Source `_product_similarity` reads `self.product_vectors` (external
state), so the similarity function is a parameter throughout. -/

/-- Python `max([sim(prod_id, s[0]) for s in selected])` from
`_diversify_results`; `selected` is non-empty at its call site. -/
def maxSim (sim : String → String → Rat) (p : String) (sel : List (String × Rat)) : Rat :=
  match sel with
  | [] => 0
  | s :: rest => (rest.map (fun q => sim p q.1)).foldl max (sim p s.1)

/-- One entry of `mmr_scores`: `(prod_id, rel_score, mmr)` with
`mmr = lambda * rel_score - (1 - lambda) * max_sim`. -/
def mmrScore (lam : Rat) (sim : String → String → Rat) (sel : List (String × Rat))
    (c : String × Rat) : String × Rat × Rat :=
  (c.1, c.2, lam * c.2 - (1 - lam) * maxSim sim c.1 sel)

/-- Python `max(mmr_scores, key=lambda x: x[2])`: the first element whose
third component is maximal. -/
def pickBest (m : String × Rat × Rat) (ms : List (String × Rat × Rat)) : String × Rat × Rat :=
  ms.foldl (fun acc x => if acc.2.2 < x.2.2 then x else acc) m

/-- The `best = max(mmr_scores, key=lambda x: x[2])` step over the
non-empty candidate list `c :: cs`. -/
def bestOf (lam : Rat) (sim : String → String → Rat) (sel : List (String × Rat))
    (c : String × Rat) (cs : List (String × Rat)) : String × Rat × Rat :=
  pickBest (mmrScore lam sim sel c) (cs.map (mmrScore lam sim sel))

/-- Python `candidates = [(p, s) for p, s, _ in mmr_scores if p != best[0]]`. -/
def candsAfter (lam : Rat) (sim : String → String → Rat) (sel : List (String × Rat))
    (cand : List (String × Rat)) (b : String) : List (String × Rat) :=
  ((cand.map (mmrScore lam sim sel)).filter (fun t => t.1 ≠ b)).map (fun t => (t.1, t.2.1))

/-- The `while len(selected) < n and candidates` loop of
`_diversify_results`.  Every iteration appends exactly one item to
`selected`, so the remaining capacity `n - len(selected)` is carried as
the structural `fuel` argument (at every call site `fuel + len(selected)
= n`, making the guard `len(selected) < n` the same as `fuel > 0`). -/
def diversifyLoop (sim : String → String → Rat) (lam : Rat) :
    Nat → List (String × Rat) → List (String × Rat) → List (String × Rat)
  | 0, selected, _ => selected
  | _ + 1, selected, [] => selected
  | fuel + 1, [], c :: cs => diversifyLoop sim lam fuel [c] cs
  | fuel + 1, s :: ss, c :: cs =>
      diversifyLoop sim lam fuel
        ((s :: ss) ++ [((bestOf lam sim (s :: ss) c cs).1, (bestOf lam sim (s :: ss) c cs).2.1)])
        (candsAfter lam sim (s :: ss) (c :: cs) (bestOf lam sim (s :: ss) c cs).1)

/-- Model of `HybridRecommender._diversify_results(scores, n)`: greedy MMR
re-ranking with the hard-coded `lambda_param = 0.7`. -/
def diversify_results (sim : String → String → Rat) (scores : ScoreMap) (n : Nat) :
    List (String × Rat) :=
  if scores = [] then [] else diversifyLoop sim 0.7 n [] (sortDesc scores)

/-- The four producer weights of `HybridRecommender.__init__`. -/
structure Weights where
  collaborative : Rat
  content_based : Rat
  contextual : Rat
  trending : Rat
deriving DecidableEq

/-- The weighted-ensemble loop of `get_recommendations`: candidate set is
the union of the producers' keys, excluded products are skipped, and each
kept product's score is the weighted sum over the four producers with
default 0 for an absent key. -/
def combineScores (w : Weights) (cfS cbS ctxS trendS : ScoreMap)
    (exclude_products : List String) : ScoreMap :=
  ((dedupF [] (cfS.map Prod.fst ++ cbS.map Prod.fst ++ ctxS.map Prod.fst ++
      trendS.map Prod.fst)).filter (fun p => ¬ p ∈ exclude_products)).map
    (fun p => (p, w.collaborative * lookupD cfS p + w.content_based * lookupD cbS p +
      w.contextual * lookupD ctxS p + w.trending * lookupD trendS p))

/-- Model of `HybridRecommender._fallback_recommendations`: trending items sorted
descending and truncated to `n`, or the empty list when trending is
empty. -/
def fallback_recommendations (trend_scores : ScoreMap) (n : Nat) : List (String × Rat) :=
  if trend_scores ≠ [] then (sortDesc trend_scores).take n else []

/-- Model of `HybridRecommender.get_recommendations`.  The four producers read
external stores (Redis, model vectors), so their outputs are parameters:
`cf_scores`, `cb_scores`, `ctx_scores` model `_collaborative_filter`,
`_content_based_filter` and `_contextual_boost`, each of which can raise
into the surrounding `try`; `_trending_items` catches its own exceptions
and returns a dict, so `trend_scores` is a plain map, also reused by the
`except`-branch call to `_fallback_recommendations`. -/
def get_recommendations (w : Weights) (sim : String → String → Rat)
    (cf_scores cb_scores ctx_scores : Except String ScoreMap) (trend_scores : ScoreMap)
    (exclude_products : List String) (n : Nat) : List (String × Rat) :=
  match cf_scores, cb_scores, ctx_scores with
  | .ok cfS, .ok cbS, .ok ctxS =>
      diversify_results sim (combineScores w cfS cbS ctxS trend_scores exclude_products) n
  | _, _, _ => fallback_recommendations trend_scores n

/-! ### A/B testing framework (`src/ab_testing.py`) -/

/-- Per-variant numeric config (`variants` values are free-form dicts in
the source; only their keys are read by the functions modelled here). -/
abbrev VarConf := List (String × Rat)

/-- The `Experiment` dataclass. -/
structure Experiment where
  experiment_id : String
  name : String
  description : String
  variants : List (String × VarConf)
  traffic_split : List (String × Rat)
  active : Bool
  start_date : Option String
  end_date : Option String
  metrics : List String
deriving DecidableEq

/-- The registry `ABTestManager.experiments`, keyed by experiment id. -/
abbrev Registry := List (String × Experiment)

/-- A tracked event (`ABTestManager.track_event` payload).  Only the
fields read by the metrics computation are modelled; `order_value` is
`metadata.get('order_value', 0)` (0 when the key is absent). -/
structure Event where
  user_id : String
  experiment_id : String
  variant : String
  event_type : String
  order_value : Rat
deriving DecidableEq

/-- Python `dict[k] = v`: replace in place when the key exists, append
otherwise. -/
def insertKey (k : String) (v : Experiment) : Registry → Registry
  | [] => [(k, v)]
  | p :: r => if p.1 = k then (k, v) :: r else p :: insertKey k v r

/-- The cumulative-traffic walk of `get_variant`
(`for variant, traffic in experiment.traffic_split.items(): ...`). -/
def assignVariant : List (String × Rat) → Rat → Rat → String
  | [], _, _ => "control"
  | (v, t) :: rest, cum, bucket =>
      if bucket < cum + t then v else assignVariant rest (cum + t) bucket

/-- Model of `ABTestManager.get_variant`.  The md5 digest-as-integer is the
parameter `md5h` (its distribution is irrelevant to the properties proved
here); the method reads but never writes `self.experiments`, which the
model makes explicit by returning the registry alongside the variant. -/
def get_variant (md5h : String → Nat) (reg : Registry) (user_id experiment_id : String) :
    Registry × String :=
  match lookupK reg experiment_id with
  | none => (reg, "control")
  | some ex =>
      if ex.active then
        let bucket : Rat := ((md5h (user_id ++ ":" ++ experiment_id) % 10000 : Nat) : Rat) / 10000
        (reg, assignVariant ex.traffic_split 0 bucket)
      else (reg, "control")

/-- Python `round` at 2 (resp. 4) decimals is round-half-to-even of the
scaled value. -/
def roundHE (q : Rat) : Int :=
  let f := q.floor
  let frac := q - (f : Rat)
  if frac < 1/2 then f
  else if 1/2 < frac then f + 1
  else if f % 2 = 0 then f else f + 1

/-- Python `round(q, 2)`. -/
def round2 (q : Rat) : Rat := ((roundHE (q * 100) : Int) : Rat) / 100

/-- Python `round(q, 4)`. -/
def round4 (q : Rat) : Rat := ((roundHE (q * 10000) : Int) : Rat) / 10000

/-- The per-variant stats dict built by `_calculate_metrics`. -/
structure Metrics where
  users : Nat
  impressions : Nat
  clicks : Nat
  purchases : Nat
  ctr : Rat
  conversion_rate : Rat
  revenue : Rat
  revenue_per_user : Rat
  aov : Rat
deriving DecidableEq

/-- The all-zero dict returned for an empty event list. -/
def zeroMetrics : Metrics :=
  ⟨0, 0, 0, 0, 0, 0, 0, 0, 0⟩

/-- Model of `ABTestManager._calculate_metrics`. -/
def calculate_metrics (events : List Event) : Metrics :=
  if events = [] then zeroMetrics
  else
    let users := (dedupF [] (events.map (fun e => e.user_id))).length
    let impressions := (events.filter (fun e => e.event_type == "impression")).length
    let clicks := (events.filter (fun e => e.event_type == "click")).length
    let purchases := (events.filter (fun e => e.event_type == "purchase")).length
    let revenue := ((events.filter (fun e => e.event_type == "purchase")).map
      (fun e => e.order_value)).sum
    let ctr : Rat := if impressions > 0 then (clicks : Rat) / (impressions : Rat) * 100 else 0
    let conversion_rate : Rat :=
      if clicks > 0 then (purchases : Rat) / (clicks : Rat) * 100 else 0
    let revenue_per_user : Rat := if users > 0 then revenue / (users : Rat) else 0
    let aov : Rat := if purchases > 0 then revenue / (purchases : Rat) else 0
    ⟨users, impressions, clicks, purchases, round2 ctr, round2 conversion_rate,
      round2 revenue, round2 revenue_per_user, round2 aov⟩

/-- Model of `ABTestManager.get_experiment_results`: raises `ValueError` for an
unknown experiment, otherwise one metrics dict per registered variant
(over the events of that experiment and variant). -/
def get_experiment_results (reg : Registry) (event_store : List Event)
    (experiment_id : String) : Except String (List (String × Metrics)) :=
  match lookupK reg experiment_id with
  | none => .error ("Experiment " ++ experiment_id ++ " not found")
  | some ex =>
      let exp_events := event_store.filter (fun e => e.experiment_id == experiment_id)
      .ok (ex.variants.map (fun v =>
        (v.1, calculate_metrics (exp_events.filter (fun e => e.variant == v.1)))))

/-- Python `variant_data[metric]` for the metric names that reach it. -/
def Metrics.getMetric (m : Metrics) (key : String) : Rat :=
  if key = "ctr" then m.ctr
  else if key = "conversion_rate" then m.conversion_rate
  else if key = "revenue" then m.revenue
  else if key = "revenue_per_user" then m.revenue_per_user
  else if key = "aov" then m.aov
  else 0

/-- One entry of the `significance` dict. -/
structure SigEntry where
  p_value : Rat
  significant : Bool
  chi_square : Rat
  lift : Rat
deriving DecidableEq

/-- The `observed` 2×2 contingency table built per non-control variant:
`[[control_success, control_total - control_success], [variant_success,
variant_total - variant_success]]`. -/
def sigTable (control_data : Metrics) (metric : String) (variant_data : Metrics) :
    (Int × Int) × (Int × Int) :=
  let control_success : Int :=
    if metric = "conversion_rate" then control_data.purchases else control_data.clicks
  let control_total : Int :=
    if metric = "conversion_rate" then control_data.clicks else control_data.impressions
  let variant_success : Int :=
    if metric = "conversion_rate" then variant_data.purchases else variant_data.clicks
  let variant_total : Int :=
    if metric = "conversion_rate" then variant_data.clicks else variant_data.impressions
  ((control_success, control_total - control_success),
    (variant_success, variant_total - variant_success))

/-- The `significance[variant]` record built from the `(chi2, p_value)`
pair `res` returned by the chi-square call.  `significant` compares the
raw p-value; `lift` is guarded against a zero control value. -/
def sigEntry (control_data : Metrics) (metric : String) (variant_data : Metrics)
    (res : Rat × Rat) : SigEntry :=
  { p_value := round4 res.2
    significant := decide (res.2 < 0.05)
    chi_square := round2 res.1
    lift :=
      if control_data.getMetric metric > 0 then
        round2 ((variant_data.getMetric metric / control_data.getMetric metric - 1) * 100)
      else 0 }

/-- The `for variant, variant_data in results.items()` loop of
`calculate_statistical_significance`, accumulating the `significance`
dict.  The chi-square call can raise (there is no `try/except` around
it in the source), which aborts the whole loop with the exception. -/
def sigLoop (chi2p : (Int × Int) × (Int × Int) → Except String (Rat × Rat))
    (control_data : Metrics) (metric : String) :
    List (String × Metrics) → List (String × SigEntry) →
      Except String (List (String × SigEntry))
  | [], significance => .ok significance
  | r :: rs, significance =>
      if r.1 = "control" then sigLoop chi2p control_data metric rs significance
      else if metric = "ctr" ∨ metric = "conversion_rate" then
        match chi2p (sigTable control_data metric r.2) with
        | .error e => .error e
        | .ok res =>
            sigLoop chi2p control_data metric rs
              (significance ++ [(r.1, sigEntry control_data metric r.2 res)])
      else sigLoop chi2p control_data metric rs significance

/-- Model of `ABTestManager.calculate_statistical_significance`.  scipy's
`stats.chi2_contingency` is external and is modelled as the parameter
`chi2p`, taking the 2×2 contingency table rows; it can RAISE (scipy
raises `ValueError` when the expected-frequency table has a zero
element, i.e. a zero row/column sum with a positive total), and since
the source has no `try/except` around the call the exception propagates
out of the whole computation.  In the non-raising cases its numeric
outputs are external data (scipy yields `nan` on an all-zero table, a
real chi2/p-value otherwise); no property proved here depends on them.
The source's scipy-import-failure branch (returning `{}`) is outside the
model. -/
def calculate_statistical_significance
    (chi2p : (Int × Int) × (Int × Int) → Except String (Rat × Rat))
    (reg : Registry) (event_store : List Event) (experiment_id metric : String) :
    Except String (List (String × SigEntry)) :=
  match get_experiment_results reg event_store experiment_id with
  | .error m => .error m
  | .ok results =>
      if results.length < 2 then .ok []
      else
        match lookupK results "control" with
        | none => .ok []
        | some control_data => sigLoop chi2p control_data metric results []

/-- Model of `ABTestManager.create_experiment`: validates that the traffic split
sums to exactly 1.0 before registering; a raise leaves `self.experiments`
untouched.  `datetime.utcnow().isoformat()` is the parameter `now`. -/
def create_experiment (reg : Registry) (experiment_id name : String)
    (variants : List (String × VarConf)) (traffic_split : List (String × Rat))
    (now : String) : Registry × Except String Experiment :=
  if (traffic_split.map Prod.snd).sum ≠ 1 then
    (reg, .error "Traffic split must sum to 1.0")
  else
    let ex : Experiment :=
      { experiment_id := experiment_id
        name := name
        description := ""
        variants := variants
        traffic_split := traffic_split
        active := false
        start_date := some now
        end_date := none
        metrics := ["ctr", "conversion_rate", "revenue"] }
    (insertKey experiment_id ex reg, .ok ex)

/-! ### Concrete inputs used in witnesses and counterexamples -/

/-- A trivially-zero product similarity (the similarity function is
external state; all properties hold for every choice). -/
def sim0 : String → String → Rat := fun _ _ => 0

/-- The constructor-default weights of `HybridRecommender.__init__`. -/
def w0 : Weights := ⟨0.4, 0.3, 0.2, 0.1⟩

/-- C8 counterexample events: one user, 3 impressions, 1 click. -/
def evC8 : List Event :=
  [⟨"u", "e", "v", "impression", 0⟩, ⟨"u", "e", "v", "impression", 0⟩,
   ⟨"u", "e", "v", "impression", 0⟩, ⟨"u", "e", "v", "click", 0⟩]

/-- Events with one click and no purchase for each variant of `ex1`: the
control conversion rate is 0 and every per-variant contingency table is
`((0, 1), (0, 1))` — a zero success column with a positive total, on
which scipy's `chi2_contingency` raises. -/
def evC3 : List Event :=
  [⟨"u1", "exp1", "control", "click", 0⟩, ⟨"u2", "exp1", "variant_a", "click", 0⟩]

/-- A never-raising stand-in for scipy's chi-square test, used to
instantiate theorems whose conclusions hold for every non-raising
external call. -/
def chi2p0 : (Int × Int) × (Int × Int) → Except String (Rat × Rat) := fun _ => .ok (0, 0)

/-- A model of the raising behaviour of scipy's `chi2_contingency` on a
2×2 table: it raises `ValueError` exactly when the expected-frequency
table has a zero element, which for a 2×2 table means some row or column
sum is zero while the grand total is positive.  (On an all-zero table
scipy does not raise: the expected frequencies are `nan`, and `nan`
statistics are returned.)  The values returned in the non-raising cases
are external data unrepresentable here — `nan` or a real chi2/p-value —
and are replaced by the stand-in `(0, 0)`; no property proved below
depends on them, only on whether the call raises. -/
def chi2Guard : (Int × Int) × (Int × Int) → Except String (Rat × Rat) :=
  fun t =>
    if t.1.1 + t.1.2 + t.2.1 + t.2.2 ≠ 0 ∧
        (t.1.1 + t.1.2 = 0 ∨ t.2.1 + t.2.2 = 0 ∨
          t.1.1 + t.2.1 = 0 ∨ t.1.2 + t.2.2 = 0) then
      .error "ValueError: The internally computed table of expected frequencies has a zero element"
    else .ok (0, 0)

/-- A two-variant active experiment used in witnesses/counterexamples. -/
def ex1 : Experiment :=
  { experiment_id := "exp1"
    name := "E"
    description := ""
    variants := [("control", []), ("variant_a", [])]
    traffic_split := [("control", 0.5), ("variant_a", 0.5)]
    active := true
    start_date := none
    end_date := none
    metrics := ["ctr", "conversion_rate", "revenue"] }

/-- A registry holding only `ex1`. -/
def reg1 : Registry := [("exp1", ex1)]

/-! ### Helper lemmas about the MMR re-ranker -/

lemma mem_pickBest (ms : List (String × Rat × Rat)) (m : String × Rat × Rat) :
    pickBest m ms ∈ m :: ms := by
  induction ms generalizing m with
  | nil => simp [pickBest]
  | cons x xs ih =>
      have h := ih (if m.2.2 < x.2.2 then x else m)
      simp only [pickBest, List.foldl_cons] at h ⊢
      rcases List.mem_cons.1 h with h1 | h1
      · by_cases hc : m.2.2 < x.2.2
        · rw [if_pos hc] at h1 ⊢; rw [h1]; simp
        · rw [if_neg hc] at h1 ⊢; rw [h1]; simp
      · simp [h1]

lemma bestOf_spec (lam : Rat) (sim : String → String → Rat) (sel : List (String × Rat))
    (c : String × Rat) (cs : List (String × Rat)) :
    ∃ q ∈ c :: cs, mmrScore lam sim sel q = bestOf lam sim sel c cs := by
  have h := mem_pickBest (cs.map (mmrScore lam sim sel)) (mmrScore lam sim sel c)
  rw [show mmrScore lam sim sel c :: cs.map (mmrScore lam sim sel)
      = (c :: cs).map (mmrScore lam sim sel) from rfl] at h
  obtain ⟨q, hq, hq2⟩ := List.mem_map.1 h
  exact ⟨q, hq, hq2⟩

lemma bestOf_pair (lam : Rat) (sim : String → String → Rat) (sel : List (String × Rat))
    (c : String × Rat) (cs : List (String × Rat)) :
    ((bestOf lam sim sel c cs).1, (bestOf lam sim sel c cs).2.1) ∈ c :: cs := by
  obtain ⟨q, hq, hq2⟩ := bestOf_spec lam sim sel c cs
  rw [← hq2]
  simpa [mmrScore] using hq

lemma mem_candsAfter (lam : Rat) (sim : String → String → Rat) (sel : List (String × Rat))
    (cand : List (String × Rat)) (b : String) (p : String × Rat) :
    p ∈ candsAfter lam sim sel cand b → p ∈ cand := by
  intro h
  obtain ⟨t, ht, hp⟩ := List.mem_map.1 h
  have ht2 := List.mem_of_mem_filter ht
  obtain ⟨q, hq, hq2⟩ := List.mem_map.1 ht2
  rw [← hp, ← hq2]
  simpa [mmrScore] using hq

lemma keys_candsAfter (lam : Rat) (sim : String → String → Rat) (sel : List (String × Rat))
    (b : String) : ∀ cand : List (String × Rat),
    (candsAfter lam sim sel cand b).map Prod.fst = (cand.map Prod.fst).filter (fun k => k ≠ b) := by
  intro cand
  induction cand with
  | nil => rfl
  | cons q qs ih =>
      by_cases hq : q.1 = b
      · simpa [candsAfter, mmrScore, hq] using ih
      · simpa [candsAfter, mmrScore, hq] using ih

lemma mem_diversifyLoop (sim : String → String → Rat) (lam : Rat) :
    ∀ (fuel : Nat) (sel cand : List (String × Rat)) (p : String × Rat),
      p ∈ diversifyLoop sim lam fuel sel cand → p ∈ sel ∨ p ∈ cand := by
  intro fuel
  induction fuel with
  | zero => intro sel cand p h; exact Or.inl h
  | succ fuel ih =>
      intro sel cand p h
      match sel, cand with
      | [], [] => exact Or.inl h
      | s :: ss, [] => exact Or.inl h
      | [], c :: cs =>
          rcases ih [c] cs p h with h1 | h1
          · right; rw [List.mem_singleton.1 h1]; simp
          · right; exact List.mem_cons_of_mem c h1
      | s :: ss, c :: cs =>
          rcases ih _ _ p h with h1 | h1
          · rcases List.mem_append.1 h1 with h2 | h2
            · exact Or.inl h2
            · right
              rw [List.mem_singleton.1 h2]
              exact bestOf_pair lam sim (s :: ss) c cs
          · right
            exact mem_candsAfter lam sim (s :: ss) (c :: cs) _ p h1

lemma length_diversifyLoop (sim : String → String → Rat) (lam : Rat) :
    ∀ (fuel : Nat) (sel cand : List (String × Rat)),
      (diversifyLoop sim lam fuel sel cand).length ≤ sel.length + fuel := by
  intro fuel
  induction fuel with
  | zero => intro sel cand; simp [diversifyLoop]
  | succ fuel ih =>
      intro sel cand
      match sel, cand with
      | [], [] =>
          show (([] : List (String × Rat))).length ≤ ([] : List (String × Rat)).length + (fuel + 1)
          simp
      | s :: ss, [] =>
          show ((s :: ss).length ≤ (s :: ss).length + (fuel + 1))
          omega
      | [], c :: cs =>
          have h := ih [c] cs
          show (diversifyLoop sim lam fuel [c] cs).length ≤ [].length + (fuel + 1)
          simp only [List.length_cons, List.length_nil] at h ⊢
          omega
      | s :: ss, c :: cs =>
          have h := ih ((s :: ss) ++ [((bestOf lam sim (s :: ss) c cs).1,
            (bestOf lam sim (s :: ss) c cs).2.1)])
            (candsAfter lam sim (s :: ss) (c :: cs) (bestOf lam sim (s :: ss) c cs).1)
          show (diversifyLoop sim lam fuel _ _).length ≤ (s :: ss).length + (fuel + 1)
          simp only [List.length_append, List.length_cons, List.length_nil] at h ⊢
          omega

lemma diversifyLoop_cons (sim : String → String → Rat) (lam : Rat) :
    ∀ (fuel : Nat) (a : String × Rat) (s cand : List (String × Rat)),
      ∃ t, diversifyLoop sim lam fuel (a :: s) cand = a :: t := by
  intro fuel
  induction fuel with
  | zero => intro a s cand; exact ⟨s, rfl⟩
  | succ fuel ih =>
      intro a s cand
      match cand with
      | [] => exact ⟨s, rfl⟩
      | c :: cs =>
          obtain ⟨t, ht⟩ := ih a (s ++ [((bestOf lam sim (a :: s) c cs).1,
            (bestOf lam sim (a :: s) c cs).2.1)])
            (candsAfter lam sim (a :: s) (c :: cs) (bestOf lam sim (a :: s) c cs).1)
          refine ⟨t, ?_⟩
          simpa [diversifyLoop] using ht

lemma nodup_step {A C : List String} {b : String}
    (hA : A.Nodup) (hC : C.Nodup) (hb : b ∈ C) (hd : A.Disjoint C) :
    ((A ++ [b]) ++ C.filter (fun k => k ≠ b)).Nodup := by
  rw [List.nodup_append, List.nodup_append]
  refine ⟨⟨hA, List.nodup_singleton b, ?_⟩, hC.filter _, ?_⟩
  · intro x hx hx2
    rw [List.mem_singleton.1 hx2] at hx
    exact hd hx hb
  · intro x hx hx2
    have hx3 := List.mem_of_mem_filter hx2
    rcases List.mem_append.1 hx with h4 | h4
    · exact hd h4 hx3
    · rw [List.mem_singleton.1 h4] at hx2
      have h5 := List.of_mem_filter hx2
      simp at h5

lemma nodup_diversifyLoop (sim : String → String → Rat) (lam : Rat) :
    ∀ (fuel : Nat) (sel cand : List (String × Rat)),
      ((sel ++ cand).map Prod.fst).Nodup →
      ((diversifyLoop sim lam fuel sel cand).map Prod.fst).Nodup := by
  intro fuel
  induction fuel with
  | zero =>
      intro sel cand h
      simp only [List.map_append, List.nodup_append] at h
      exact h.1
  | succ fuel ih =>
      intro sel cand h
      match sel, cand with
      | [], [] =>
          show ((([] : List (String × Rat)).map Prod.fst).Nodup)
          simp
      | s :: ss, [] =>
          show (((s :: ss).map Prod.fst).Nodup)
          rw [List.append_nil] at h
          exact h
      | [], c :: cs => exact ih [c] cs (by simpa using h)
      | s :: ss, c :: cs =>
          apply ih
          have hb : (bestOf lam sim (s :: ss) c cs).1 ∈ (c :: cs).map Prod.fst := by
            have h5 := bestOf_pair lam sim (s :: ss) c cs
            exact List.mem_map.2 ⟨_, h5, rfl⟩
          simp only [List.map_append, List.nodup_append] at h
          obtain ⟨hs, hc, hdisj⟩ := h
          have h6 := nodup_step hs hc hb hdisj
          simpa [List.map_append, keys_candsAfter] using h6

lemma mem_of_mem_diversify (sim : String → String → Rat) (scores : ScoreMap) (n : Nat)
    (q : String × Rat) (h : q ∈ diversify_results sim scores n) : q ∈ scores := by
  by_cases hs : scores = []
  · rw [hs] at h ⊢; simp [diversify_results] at h
  · rw [diversify_results, if_neg hs] at h
    rcases mem_diversifyLoop sim 0.7 n [] (sortDesc scores) q h with h1 | h1
    · simp at h1
    · exact (List.mem_insertionSort sortLe).1 h1

lemma sortDesc_head_max (scores : ScoreMap) (c : String × Rat) (cs : List (String × Rat))
    (h : sortDesc scores = c :: cs) : c ∈ scores ∧ ∀ q ∈ scores, q.2 ≤ c.2 := by
  have hperm : List.Perm (sortDesc scores) scores := List.perm_insertionSort sortLe scores
  have hsorted : (sortDesc scores).Sorted sortLe := List.sorted_insertionSort sortLe scores
  rw [h] at hperm hsorted
  constructor
  · exact hperm.subset (List.mem_cons_self c cs)
  · intro q hq
    rcases List.mem_cons.1 (hperm.symm.subset hq) with h1 | h1
    · rw [h1]
    · exact List.rel_of_sorted_cons hsorted q h1

lemma sortDesc_ne_nil (scores : ScoreMap) (h : scores ≠ []) : sortDesc scores ≠ [] := by
  intro hc
  have hlen : (sortDesc scores).length = scores.length :=
    (List.perm_insertionSort sortLe scores).length_eq
  rw [hc] at hlen
  exact h (List.length_eq_zero.1 hlen.symm)

/-! ### Claims about the MMR re-ranker -/

/-- C4: for every score map whose keys are unique (a Python dict) and
every n, the MMR selection returns at most n items with pairwise-distinct
items, and when n ≥ 1 and the input is non-empty its first element is a
highest-scoring entry of the input. -/
theorem diversify_select_contract (sim : String → String → Rat) (scores : ScoreMap) (n : Nat)
    (hnd : (scores.map Prod.fst).Nodup) :
    (diversify_results sim scores n).length ≤ n
  ∧ ((diversify_results sim scores n).map Prod.fst).Nodup
  ∧ (1 ≤ n → scores ≠ [] →
      ∃ c t, diversify_results sim scores n = c :: t ∧ c ∈ scores ∧ ∀ q ∈ scores, q.2 ≤ c.2) := by
  refine ⟨?_, ?_, ?_⟩
  · by_cases hs : scores = []
    · simp [diversify_results, hs]
    · rw [diversify_results, if_neg hs]
      have h := length_diversifyLoop sim 0.7 n [] (sortDesc scores)
      simpa using h
  · by_cases hs : scores = []
    · simp [diversify_results, hs]
    · rw [diversify_results, if_neg hs]
      apply nodup_diversifyLoop
      have hperm : List.Perm ((sortDesc scores).map Prod.fst) (scores.map Prod.fst) :=
        (List.perm_insertionSort sortLe scores).map Prod.fst
      simpa using hperm.nodup_iff.2 hnd
  · intro _ hne
    obtain ⟨c, cs, hcs⟩ : ∃ c cs, sortDesc scores = c :: cs := by
      cases hsd : sortDesc scores with
      | nil => exact absurd hsd (sortDesc_ne_nil scores hne)
      | cons c cs => exact ⟨c, cs, rfl⟩
    obtain ⟨m, rfl⟩ : ∃ m, n = m + 1 := ⟨n - 1, by omega⟩
    rw [diversify_results, if_neg hne, hcs]
    obtain ⟨t, ht⟩ := diversifyLoop_cons sim 0.7 m c [] cs
    exact ⟨c, t, ht, (sortDesc_head_max scores c cs hcs).1, (sortDesc_head_max scores c cs hcs).2⟩

/-- Witness for C4 at a concrete input. -/
theorem diversify_select_contract_witness :
    (([(("a" : String), (1 : Rat)), ("b", 2)]).map Prod.fst).Nodup
  ∧ ((diversify_results sim0 [("a", 1), ("b", 2)] 2).length ≤ 2
      ∧ ((diversify_results sim0 [("a", 1), ("b", 2)] 2).map Prod.fst).Nodup
      ∧ (1 ≤ 2 → [(("a" : String), (1 : Rat)), ("b", 2)] ≠ [] →
          ∃ c t, diversify_results sim0 [("a", 1), ("b", 2)] 2 = c :: t
            ∧ c ∈ [(("a" : String), (1 : Rat)), ("b", 2)]
            ∧ ∀ q ∈ [(("a" : String), (1 : Rat)), ("b", 2)], q.2 ≤ c.2)) :=
  ⟨by decide, diversify_select_contract sim0 [("a", 1), ("b", 2)] 2 (by decide)⟩

/-- C10: every (item, score) pair returned by the MMR selection is a pair
of the input map — selected items keep their original relevance score,
not their MMR value. -/
theorem diversify_pairs_from_input (sim : String → String → Rat) (scores : ScoreMap) (n : Nat) :
    ∀ q ∈ diversify_results sim scores n, q ∈ scores :=
  fun q hq => mem_of_mem_diversify sim scores n q hq

/-- Witness for C10 at a concrete input. -/
theorem diversify_pairs_from_input_witness :
    ("a", (1 : Rat)) ∈ diversify_results sim0 [("a", 1)] 1
  ∧ ("a", (1 : Rat)) ∈ [(("a" : String), (1 : Rat))] :=
  ⟨by with_unfolding_all decide,
    diversify_pairs_from_input sim0 [("a", 1)] 1 ("a", 1) (by with_unfolding_all decide)⟩

/-! ### Helper lemmas about the score aggregator -/

lemma keys_mapPair (f : String → Rat) (l : List String) :
    (l.map (fun p => (p, f p))).map Prod.fst = l := by
  induction l with
  | nil => rfl
  | cons x xs ih => simp [ih]

lemma mem_dedupF (p : String) : ∀ (l seen : List String),
    p ∈ dedupF seen l ↔ p ∈ l ∧ p ∉ seen := by
  intro l
  induction l with
  | nil => intro seen; simp [dedupF]
  | cons x xs ih =>
      intro seen
      by_cases hx : x ∈ seen
      · rw [dedupF, if_pos hx, ih]
        constructor
        · rintro ⟨h1, h2⟩
          exact ⟨List.mem_cons_of_mem x h1, h2⟩
        · rintro ⟨h1, h2⟩
          rcases List.mem_cons.1 h1 with h3 | h3
          · exact absurd (h3 ▸ hx) h2
          · exact ⟨h3, h2⟩
      · rw [dedupF, if_neg hx]
        constructor
        · intro h1
          rcases List.mem_cons.1 h1 with h3 | h3
          · exact ⟨h3 ▸ List.mem_cons_self x xs, h3 ▸ hx⟩
          · have h4 := (ih (x :: seen)).1 h3
            exact ⟨List.mem_cons_of_mem x h4.1, fun hs => h4.2 (List.mem_cons_of_mem x hs)⟩
        · rintro ⟨h1, h2⟩
          rcases List.mem_cons.1 h1 with h3 | h3
          · rw [h3]; exact List.mem_cons_self x _
          · by_cases hpx : p = x
            · rw [hpx]; exact List.mem_cons_self x _
            · refine List.mem_cons_of_mem x ((ih (x :: seen)).2 ⟨h3, ?_⟩)
              intro hc
              rcases List.mem_cons.1 hc with h4 | h4
              · exact hpx h4
              · exact h2 h4

lemma lookupK_mapPair (f : String → Rat) : ∀ (l : List String) (p : String), p ∈ l →
    lookupK (l.map (fun q => (q, f q))) p = some (f p) := by
  intro l
  induction l with
  | nil => intro p h; simp at h
  | cons x xs ih =>
      intro p hp
      by_cases hpx : p = x
      · subst hpx
        simp [lookupK]
      · have hmem : p ∈ xs := by
          rcases List.mem_cons.1 hp with h | h
          · exact absurd h hpx
          · exact h
        have h2 := ih p hmem
        simp only [lookupK, List.map_cons] at h2 ⊢
        rw [List.find?_cons_of_neg _ (by simp [Ne.symm hpx])]
        exact h2

lemma lookupD_mapPair (f : String → Rat) (l : List String) (p : String) (hp : p ∈ l) :
    lookupD (l.map (fun q => (q, f q))) p = f p := by
  rw [lookupD, lookupK_mapPair f l p hp, Option.getD_some]

/-! ### Claims about the score aggregator -/

/-- C5 (confirmed): with all producers succeeding, `get_recommendations`
re-ranks exactly the combined map whose key set is the union of the four
producers' item ids minus the exclusions, whose value at each candidate
is the weight-scaled sum of producer scores (0 for an absent key), and
excluded items never appear in the returned list. -/
theorem recommend_candidate_union (w : Weights) (sim : String → String → Rat)
    (cfS cbS ctxS trendS : ScoreMap) (exclude_products : List String) (n : Nat) :
    get_recommendations w sim (.ok cfS) (.ok cbS) (.ok ctxS) trendS exclude_products n
      = diversify_results sim (combineScores w cfS cbS ctxS trendS exclude_products) n
  ∧ (∀ p : String,
      p ∈ (combineScores w cfS cbS ctxS trendS exclude_products).map Prod.fst ↔
        ((p ∈ cfS.map Prod.fst ∨ p ∈ cbS.map Prod.fst ∨ p ∈ ctxS.map Prod.fst ∨
          p ∈ trendS.map Prod.fst) ∧ p ∉ exclude_products))
  ∧ (∀ p : String,
      p ∈ (combineScores w cfS cbS ctxS trendS exclude_products).map Prod.fst →
        lookupD (combineScores w cfS cbS ctxS trendS exclude_products) p
          = w.collaborative * lookupD cfS p + w.content_based * lookupD cbS p +
            w.contextual * lookupD ctxS p + w.trending * lookupD trendS p)
  ∧ (∀ q ∈ get_recommendations w sim (.ok cfS) (.ok cbS) (.ok ctxS) trendS exclude_products n,
      q.1 ∉ exclude_products) := by
  have hkeys : (combineScores w cfS cbS ctxS trendS exclude_products).map Prod.fst
      = (dedupF [] (cfS.map Prod.fst ++ cbS.map Prod.fst ++ ctxS.map Prod.fst ++
          trendS.map Prod.fst)).filter (fun p => ¬ p ∈ exclude_products) :=
    keys_mapPair _ _
  refine ⟨rfl, ?_, ?_, ?_⟩
  · intro p
    rw [hkeys, List.mem_filter, mem_dedupF]
    simp [List.mem_append, or_assoc]
  · intro p hp
    rw [hkeys] at hp
    exact lookupD_mapPair _ _ p hp
  · intro q hq
    have hq2 := mem_of_mem_diversify sim _ n q hq
    have hq3 : q.1 ∈ (combineScores w cfS cbS ctxS trendS exclude_products).map Prod.fst :=
      List.mem_map.2 ⟨q, hq2, rfl⟩
    rw [hkeys, List.mem_filter] at hq3
    simpa using hq3.2

/-- Witness for C5 at a concrete input: candidate "b" survives, excluded
item "a" is gone, and the combined score of "b" is the weighted sum. -/
theorem recommend_candidate_union_witness :
    ("b" ∈ (combineScores w0 [("a", 1)] [("b", 2)] [] [("t", 3)] ["a"]).map Prod.fst)
  ∧ lookupD (combineScores w0 [("a", 1)] [("b", 2)] [] [("t", 3)] ["a"]) "b"
      = w0.collaborative * lookupD [("a", 1)] "b" + w0.content_based * lookupD [("b", 2)] "b" +
        w0.contextual * lookupD [] "b" + w0.trending * lookupD [("t", 3)] "b"
  ∧ ¬ ("a" ∈ (combineScores w0 [("a", 1)] [("b", 2)] [] [("t", 3)] ["a"]).map Prod.fst) := by
  have h := recommend_candidate_union w0 sim0 [("a", 1)] [("b", 2)] [] [("t", 3)] ["a"] 5
  refine ⟨?_, h.2.2.1 "b" ?_, ?_⟩
  · with_unfolding_all decide
  · with_unfolding_all decide
  · with_unfolding_all decide

/-- C1 (amended): if any of the collaborative, content-based or
contextual producers raises inside `get_recommendations`, the single
`try/except` around all producer calls makes the whole request fall back
to trending-only results; the non-failing producers' scores do not
contribute.  (The trending producer catches its own exceptions and cannot
raise here.) -/
theorem producer_error_triggers_fallback (w : Weights) (sim : String → String → Rat)
    (cf_scores cb_scores ctx_scores : Except String ScoreMap) (trend_scores : ScoreMap)
    (exclude_products : List String) (n : Nat)
    (herr : (∃ m, cf_scores = .error m) ∨ (∃ m, cb_scores = .error m) ∨
      (∃ m, ctx_scores = .error m)) :
    get_recommendations w sim cf_scores cb_scores ctx_scores trend_scores exclude_products n
      = fallback_recommendations trend_scores n := by
  rcases herr with ⟨m, rfl⟩ | ⟨m, rfl⟩ | ⟨m, rfl⟩
  · cases cb_scores <;> cases ctx_scores <;> rfl
  · cases cf_scores <;> cases ctx_scores <;> rfl
  · cases cf_scores <;> cases cb_scores <;> rfl

/-- Witness for the amended C1 at a concrete input. -/
theorem producer_error_triggers_fallback_witness :
    get_recommendations w0 sim0 (.error "cf down") (.ok [("b", (1 : Rat))]) (.ok [])
      [("t", 1)] [] 2 = fallback_recommendations [("t", (1 : Rat))] 2 :=
  producer_error_triggers_fallback w0 sim0 _ _ _ _ _ _ (Or.inl ⟨"cf down", rfl⟩)

/-- C1 counterexample: with the collaborative producer failing and the
content-based producer succeeding, the result is NOT what treating the
failed producer as an empty map would give — the content-based score for
"b" is dropped entirely (the code returns the trending fallback
`[("t", 1)]` instead of `[("b", 3/10), ("t", 1/10)]`). -/
theorem producer_error_not_failsoft :
    get_recommendations w0 sim0 (.error "cf down") (.ok [("b", 1)]) (.ok []) [("t", 1)] [] 2
      ≠ get_recommendations w0 sim0 (.ok []) (.ok [("b", 1)]) (.ok []) [("t", 1)] [] 2 := by
  with_unfolding_all decide

/-! ### Claims about variant assignment and the experiment registry -/

/-- C7: `get_variant` is a pure deterministic read: it never modifies the
registry, and a repeated call with the same arguments against the
resulting registry state returns the identical variant name. -/
theorem get_variant_deterministic (md5h : String → Nat) (reg : Registry)
    (user_id experiment_id : String) :
    (get_variant md5h reg user_id experiment_id).1 = reg
  ∧ (get_variant md5h (get_variant md5h reg user_id experiment_id).1 user_id experiment_id).2
      = (get_variant md5h reg user_id experiment_id).2 := by
  have h1 : (get_variant md5h reg user_id experiment_id).1 = reg := by
    cases hlk : lookupK reg experiment_id with
    | none => simp [get_variant, hlk]
    | some ex =>
        simp only [get_variant, hlk]
        split <;> rfl
  exact ⟨h1, by rw [h1]⟩

/-- C9: an unknown experiment id makes the per-variant metrics
computation raise `ValueError`, while variant assignment on the same
registry fails open to "control" without touching the registry. -/
theorem unknown_experiment_contrast (md5h : String → Nat) (reg : Registry)
    (event_store : List Event) (user_id experiment_id : String)
    (hno : lookupK reg experiment_id = none) :
    get_experiment_results reg event_store experiment_id
        = .error ("Experiment " ++ experiment_id ++ " not found")
  ∧ (get_variant md5h reg user_id experiment_id).2 = "control"
  ∧ (get_variant md5h reg user_id experiment_id).1 = reg := by
  refine ⟨?_, ?_, ?_⟩
  · simp [get_experiment_results, hno]
  · simp [get_variant, hno]
  · simp [get_variant, hno]

/-- Witness for C9 at a concrete input. -/
theorem unknown_experiment_contrast_witness :
    lookupK ([] : Registry) "missing" = none
  ∧ (get_experiment_results [] [] "missing"
        = .error ("Experiment " ++ "missing" ++ " not found")
      ∧ (get_variant (fun _ => 0) [] "u" "missing").2 = "control"
      ∧ (get_variant (fun _ => 0) [] "u" "missing").1 = []) :=
  ⟨rfl, unknown_experiment_contrast (fun _ => 0) [] [] "u" "missing" rfl⟩

lemma lookupK_insertKey (k : String) (v : Experiment) : ∀ r : Registry,
    lookupK (insertKey k v r) k = some v := by
  intro r
  induction r with
  | nil => simp [insertKey, lookupK]
  | cons p r ih =>
      by_cases hp : p.1 = k
      · simp [insertKey, hp, lookupK]
      · simp only [insertKey, if_neg hp]
        simp only [lookupK] at ih ⊢
        rw [List.find?_cons_of_neg _ (by simp [hp])]
        exact ih

/-- C6: `create_experiment` rejects a traffic split whose fractions do
not sum to exactly 1 (the registry is returned unchanged alongside the
raised error), and registers an inactive experiment when the sum is
exactly 1. -/
theorem create_experiment_validates (reg : Registry) (eid nm now : String)
    (variants : List (String × VarConf)) (traffic_split : List (String × Rat)) :
    ((traffic_split.map Prod.snd).sum ≠ 1 →
      create_experiment reg eid nm variants traffic_split now
        = (reg, .error "Traffic split must sum to 1.0"))
  ∧ ((traffic_split.map Prod.snd).sum = 1 →
      ∃ ex : Experiment,
        create_experiment reg eid nm variants traffic_split now
          = (insertKey eid ex reg, .ok ex)
        ∧ lookupK (create_experiment reg eid nm variants traffic_split now).1 eid = some ex
        ∧ ex.active = false) := by
  constructor
  · intro h
    rw [create_experiment, if_pos h]
  · intro h
    refine ⟨⟨eid, nm, "", variants, traffic_split, false, some now, none,
      ["ctr", "conversion_rate", "revenue"]⟩, ?_, ?_, rfl⟩
    · rw [create_experiment, if_neg (by simp [h])]
    · rw [create_experiment, if_neg (by simp [h])]
      exact lookupK_insertKey eid _ reg

/-- Witness for C6: a 0.5 split is rejected with the registry unchanged;
a split summing to 1 registers an inactive experiment. -/
theorem create_experiment_validates_witness :
    ((([(("a" : String), (1 : Rat)/2)].map Prod.snd).sum ≠ 1)
      ∧ create_experiment [] "e1" "N" [] [("a", 1/2)] "now"
          = ([], .error "Traffic split must sum to 1.0"))
  ∧ ((([(("a" : String), (1 : Rat))].map Prod.snd).sum = 1)
      ∧ ∃ ex : Experiment,
          create_experiment [] "e2" "N" [] [("a", 1)] "now"
            = (insertKey "e2" ex [], .ok ex)
          ∧ lookupK (create_experiment [] "e2" "N" [] [("a", 1)] "now").1 "e2" = some ex
          ∧ ex.active = false) := by
  constructor
  · exact ⟨by with_unfolding_all decide,
      (create_experiment_validates [] "e1" "N" "now" [] [("a", 1/2)]).1
        (by with_unfolding_all decide)⟩
  · exact ⟨by with_unfolding_all decide,
      (create_experiment_validates [] "e2" "N" "now" [] [("a", 1)]).2
        (by with_unfolding_all decide)⟩

/-! ### Claims about the metrics computation -/

lemma round2_zero : round2 0 = 0 := by
  with_unfolding_all decide

/-- C8 (amended): the metrics computation never divides by zero — each
derived rate equals the 2-decimal rounding of its defining formula when
its denominator is positive, and 0 when the denominator is 0. -/
theorem metrics_rates_guarded (events : List Event) :
    (calculate_metrics events).ctr
      = (if (calculate_metrics events).impressions > 0 then
          round2 (((calculate_metrics events).clicks : Rat) /
            ((calculate_metrics events).impressions : Rat) * 100) else 0)
  ∧ (calculate_metrics events).conversion_rate
      = (if (calculate_metrics events).clicks > 0 then
          round2 (((calculate_metrics events).purchases : Rat) /
            ((calculate_metrics events).clicks : Rat) * 100) else 0)
  ∧ (calculate_metrics events).revenue_per_user
      = (if (calculate_metrics events).users > 0 then
          round2 ((((events.filter (fun e => e.event_type == "purchase")).map
            (fun e => e.order_value)).sum) / ((calculate_metrics events).users : Rat)) else 0)
  ∧ (calculate_metrics events).aov
      = (if (calculate_metrics events).purchases > 0 then
          round2 ((((events.filter (fun e => e.event_type == "purchase")).map
            (fun e => e.order_value)).sum) / ((calculate_metrics events).purchases : Rat))
          else 0) := by
  by_cases hev : events = []
  · simp [calculate_metrics, hev, zeroMetrics]
  · simp only [calculate_metrics, if_neg hev]
    refine ⟨?_, ?_, ?_, ?_⟩ <;> (split <;> simp_all [round2_zero])

/-- C8 counterexample: with 3 impressions and 1 click the stored CTR is
the rounded 3333/100 = 33.33, not the claimed exact value
clicks/impressions×100 = 100/3. -/
theorem metrics_ctr_not_exact :
    (calculate_metrics evC8).impressions = 3 ∧ (calculate_metrics evC8).clicks = 1
  ∧ (calculate_metrics evC8).ctr ≠ ((1 : Rat) / 3) * 100 := by
  with_unfolding_all decide

/-! ### Claims about the significance computation -/

lemma sigLoop_lift_zero (chi2p : (Int × Int) × (Int × Int) → Except String (Rat × Rat))
    (cd : Metrics) (metric : String) (hz : cd.getMetric metric = 0) :
    ∀ (rs : List (String × Metrics)) (acc : List (String × SigEntry)),
      (∀ p ∈ acc, p.2.lift = 0) →
      ∀ l, sigLoop chi2p cd metric rs acc = .ok l → ∀ p ∈ l, p.2.lift = 0 := by
  intro rs
  induction rs with
  | nil =>
      intro acc hacc l hl p hp
      injection hl with h
      exact hacc p (h ▸ hp)
  | cons r rs ih =>
      intro acc hacc l hl p hp
      simp only [sigLoop] at hl
      by_cases hr : r.1 = "control"
      · rw [if_pos hr] at hl
        exact ih acc hacc l hl p hp
      · rw [if_neg hr] at hl
        by_cases hm : metric = "ctr" ∨ metric = "conversion_rate"
        · rw [if_pos hm] at hl
          cases hv : chi2p (sigTable cd metric r.2) with
          | error e => rw [hv] at hl; exact absurd hl (by simp)
          | ok v =>
              rw [hv] at hl
              refine ih _ ?_ l hl p hp
              intro q hq
              rcases List.mem_append.1 hq with h1 | h1
              · exact hacc q h1
              · rw [List.mem_singleton.1 h1]
                simp [sigEntry, hz]
        · rw [if_neg hm] at hl
          exact ih acc hacc l hl p hp

/-- C3 (amended): the lift division is guarded — whenever the
significance computation returns a result and the control variant's
value for the tested metric is 0, every reported lift is 0 and no
division by zero is performed.  The computation can nonetheless throw:
the chi-square call itself is unguarded (see the counterexample). -/
theorem significance_lift_zero_when_control_zero
    (chi2p : (Int × Int) × (Int × Int) → Except String (Rat × Rat)) (reg : Registry)
    (event_store : List Event) (experiment_id metric : String)
    (results : List (String × Metrics)) (control_data : Metrics)
    (hres : get_experiment_results reg event_store experiment_id = .ok results)
    (hcd : lookupK results "control" = some control_data)
    (hz : control_data.getMetric metric = 0) :
    ∀ l, calculate_statistical_significance chi2p reg event_store experiment_id metric = .ok l →
      ∀ p ∈ l, p.2.lift = 0 := by
  intro l hl p hp
  simp only [calculate_statistical_significance, hres] at hl
  by_cases hlen : results.length < 2
  · rw [if_pos hlen] at hl
    injection hl with h
    rw [← h] at hp
    simp at hp
  · rw [if_neg hlen, hcd] at hl
    exact sigLoop_lift_zero chi2p control_data metric hz results [] (by simp) l hl p hp

/-- Witness for the amended C3 at a concrete input: a registered
two-variant experiment with no recorded events (control's conversion
rate is 0) and a non-raising chi-square call. -/
theorem significance_lift_zero_when_control_zero_witness :
    get_experiment_results reg1 [] "exp1"
        = .ok [("control", zeroMetrics), ("variant_a", zeroMetrics)]
  ∧ lookupK [("control", zeroMetrics), ("variant_a", zeroMetrics)] "control" = some zeroMetrics
  ∧ zeroMetrics.getMetric "conversion_rate" = 0
  ∧ calculate_statistical_significance chi2p0 reg1 [] "exp1" "conversion_rate"
      = .ok [("variant_a", sigEntry zeroMetrics "conversion_rate" zeroMetrics (0, 0))]
  ∧ ∀ p ∈ [(("variant_a" : String), sigEntry zeroMetrics "conversion_rate" zeroMetrics (0, 0))],
      p.2.lift = 0 :=
  ⟨by with_unfolding_all rfl, by with_unfolding_all rfl, by with_unfolding_all rfl,
    by with_unfolding_all rfl,
    significance_lift_zero_when_control_zero chi2p0 reg1 [] "exp1" "conversion_rate"
      [("control", zeroMetrics), ("variant_a", zeroMetrics)] zeroMetrics
      (by with_unfolding_all rfl) (by with_unfolding_all rfl) (by with_unfolding_all rfl)
      [("variant_a", sigEntry zeroMetrics "conversion_rate" zeroMetrics (0, 0))]
      (by with_unfolding_all rfl)⟩

/-- C3 counterexample: with control at 0 purchases and 1 click (metric
value 0, inside the claim's hypothesis) and the variant also without
purchases, the contingency table is `((0, 1), (0, 1))` — a zero success
column with a positive total — so the unguarded chi-square call raises
and the exception propagates out of the significance computation instead
of the claimed no-throw lift-0 result. -/
theorem significance_throws_when_control_zero :
    (calculate_metrics ((evC3.filter (fun e => e.experiment_id == "exp1")).filter
        (fun e => e.variant == "control"))).getMetric "conversion_rate" = 0
  ∧ calculate_statistical_significance chi2Guard reg1 evC3 "exp1" "conversion_rate"
      = .error
        "ValueError: The internally computed table of expected frequencies has a zero element" := by
  constructor
  · with_unfolding_all rfl
  · with_unfolding_all rfl

lemma lookupK_isSome {α : Type} : ∀ (l : List (String × α)) (k : String),
    k ∈ l.map Prod.fst → ∃ v, lookupK l k = some v := by
  intro l
  induction l with
  | nil => intro k h; simp at h
  | cons p ps ih =>
      intro k h
      by_cases hp : p.1 = k
      · exact ⟨p.2, by simp [lookupK, hp]⟩
      · rw [List.map_cons] at h
        have h2 : k ∈ ps.map Prod.fst := by
          rcases List.mem_cons.1 h with h3 | h3
          · exact absurd h3.symm hp
          · exact h3
        obtain ⟨v, hv⟩ := ih k h2
        refine ⟨v, ?_⟩
        simp only [lookupK] at hv ⊢
        rw [List.find?_cons_of_neg _ (by simp [hp])]
        exact hv

lemma sigLoop_total_length (chi2p : (Int × Int) × (Int × Int) → Except String (Rat × Rat))
    (cd : Metrics) (htot : ∀ t, ∃ v, chi2p t = .ok v) :
    ∀ (rs : List (String × Metrics)) (acc : List (String × SigEntry)),
      ∃ l, sigLoop chi2p cd "conversion_rate" rs acc = .ok l
        ∧ l.length = acc.length + (rs.filter (fun r => r.1 ≠ "control")).length := by
  intro rs
  induction rs with
  | nil => intro acc; exact ⟨acc, rfl, by simp⟩
  | cons r rs ih =>
      intro acc
      by_cases hr : r.1 = "control"
      · obtain ⟨l, hl, hlen⟩ := ih acc
        refine ⟨l, ?_, ?_⟩
        · simp only [sigLoop]
          rw [if_pos hr]
          exact hl
        · rw [hlen]
          simp [List.filter_cons, hr]
      · obtain ⟨v, hv⟩ := htot (sigTable cd "conversion_rate" r.2)
        obtain ⟨l, hl, hlen⟩ := ih (acc ++ [(r.1, sigEntry cd "conversion_rate" r.2 v)])
        refine ⟨l, ?_, ?_⟩
        · simp only [sigLoop]
          rw [if_neg hr, if_pos (Or.inr trivial), hv]
          exact hl
        · rw [hlen]
          simp only [List.length_append, List.length_cons, List.length_nil, List.filter_cons]
          rw [if_pos (by simp [hr])]
          simp only [List.length_cons]
          omega

lemma sigLoop_error (e : String) (cd : Metrics) :
    ∀ (rs : List (String × Metrics)) (acc : List (String × SigEntry)),
      (∃ r ∈ rs, r.1 ≠ "control") →
      sigLoop (fun _ => .error e) cd "conversion_rate" rs acc = .error e := by
  intro rs
  induction rs with
  | nil => intro acc h; simp at h
  | cons r rs ih =>
      intro acc hex2
      simp only [sigLoop]
      by_cases hr : r.1 = "control"
      · rw [if_pos hr]
        apply ih
        rcases hex2 with ⟨r2, hr2, hne⟩
        rcases List.mem_cons.1 hr2 with h3 | h3
        · rw [h3] at hne
          exact absurd hr hne
        · exact ⟨r2, h3, hne⟩
      · rw [if_neg hr, if_pos (Or.inr trivial)]

lemma filter_fst_map_length (g : String × VarConf → Metrics) :
    ∀ vs : List (String × VarConf),
      ((vs.map (fun v => (v.1, g v))).filter (fun r => r.1 ≠ "control")).length
        = (vs.filter (fun v => v.1 ≠ "control")).length := by
  intro vs
  induction vs with
  | nil => rfl
  | cons v vs ih => by_cases hv : v.1 = "control" <;> simpa [hv] using ih

lemma exists_noncontrol (vs : List (String × VarConf))
    (hnd : (vs.map Prod.fst).Nodup) (h2 : 2 ≤ vs.length) :
    0 < (vs.filter (fun v => v.1 ≠ "control")).length := by
  by_contra h
  have hempty : vs.filter (fun v => v.1 ≠ "control") = [] :=
    List.length_eq_zero.1 (by omega)
  have hall : ∀ v ∈ vs, v.1 = "control" := by
    intro v hv
    by_contra hvc
    have hmem : v ∈ vs.filter (fun v => v.1 ≠ "control") :=
      List.mem_filter.2 ⟨hv, by simp [hvc]⟩
    rw [hempty] at hmem
    simp at hmem
  cases vs with
  | nil => simp at h2
  | cons v1 rest =>
      cases rest with
      | nil => simp at h2
      | cons v2 rest2 =>
          have ha := hall v1 (List.mem_cons_self _ _)
          have hb := hall v2 (List.mem_cons_of_mem _ (List.mem_cons_self _ _))
          rw [List.map_cons, List.map_cons, ha, hb] at hnd
          simp at hnd

/-- C2 (amended): the emptiness guard of the significance computation
counts registered variants (and requires a "control" entry), not
variants with recorded events.  For a registered experiment with at
least two variants including "control" and metric "conversion_rate":
whenever the external chi-square calls return values — as scipy does on
the all-zero tables of an experiment without events, where it returns
nan statistics — the result is non-empty, with one entry per non-control
variant; and when a chi-square call raises (scipy's `ValueError` on a
zero row/column sum with positive total), the exception propagates out
of the computation uncaught. -/
theorem significance_entries_per_variant (reg : Registry)
    (event_store : List Event) (experiment_id : String) (ex : Experiment)
    (hex : lookupK reg experiment_id = some ex)
    (hnd : (ex.variants.map Prod.fst).Nodup)
    (h2 : 2 ≤ ex.variants.length)
    (hc : "control" ∈ ex.variants.map Prod.fst) :
    (∀ chi2p : (Int × Int) × (Int × Int) → Except String (Rat × Rat),
      (∀ t, ∃ v, chi2p t = .ok v) →
      ∃ l, calculate_statistical_significance chi2p reg event_store experiment_id
            "conversion_rate" = .ok l
        ∧ l.length = (ex.variants.filter (fun v => v.1 ≠ "control")).length
        ∧ l ≠ [])
  ∧ (∀ e : String, calculate_statistical_significance (fun _ => .error e) reg event_store
        experiment_id "conversion_rate" = .error e) := by
  have hres : get_experiment_results reg event_store experiment_id
      = .ok (ex.variants.map (fun v => (v.1, calculate_metrics
          ((event_store.filter (fun e => e.experiment_id == experiment_id)).filter
            (fun e => e.variant == v.1))))) := by
    simp [get_experiment_results, hex]
  have hkeys : (ex.variants.map (fun v => (v.1, calculate_metrics
      ((event_store.filter (fun e => e.experiment_id == experiment_id)).filter
        (fun e => e.variant == v.1))))).map Prod.fst = ex.variants.map Prod.fst := by
    rw [List.map_map]
    rfl
  obtain ⟨cd, hcd⟩ := lookupK_isSome _ "control" (by rw [hkeys]; exact hc)
  have hlen2 : ¬ (ex.variants.map (fun v => (v.1, calculate_metrics
      ((event_store.filter (fun e => e.experiment_id == experiment_id)).filter
        (fun e => e.variant == v.1))))).length < 2 := by
    rw [List.length_map]
    omega
  constructor
  · intro chi2p htot
    obtain ⟨l, hl, hlen⟩ := sigLoop_total_length chi2p cd htot
      (ex.variants.map (fun v => (v.1, calculate_metrics
        ((event_store.filter (fun e => e.experiment_id == experiment_id)).filter
          (fun e => e.variant == v.1))))) []
    refine ⟨l, ?_, ?_, ?_⟩
    · simp only [calculate_statistical_significance, hres]
      rw [if_neg hlen2, hcd]
      exact hl
    · rw [hlen]
      simp only [List.length_nil, Nat.zero_add]
      exact filter_fst_map_length _ ex.variants
    · rw [← List.length_pos, hlen]
      simp only [List.length_nil, Nat.zero_add]
      rw [filter_fst_map_length _ ex.variants]
      exact exists_noncontrol ex.variants hnd h2
  · intro e
    simp only [calculate_statistical_significance, hres]
    rw [if_neg hlen2, hcd]
    apply sigLoop_error
    have hpos := exists_noncontrol ex.variants hnd h2
    obtain ⟨v, hv⟩ := List.exists_mem_of_length_pos hpos
    have hv1 : v ∈ ex.variants := List.mem_of_mem_filter hv
    have hv2 : v.1 ≠ "control" := by simpa using List.of_mem_filter hv
    exact ⟨_, List.mem_map.2 ⟨v, hv1, rfl⟩, hv2⟩

/-- Witness for the amended C2 at a concrete input: two registered
variants, empty event store; a non-raising chi-square call yields one
significance entry, an always-raising one propagates its exception. -/
theorem significance_entries_per_variant_witness :
    lookupK reg1 "exp1" = some ex1
  ∧ (ex1.variants.map Prod.fst).Nodup
  ∧ 2 ≤ ex1.variants.length
  ∧ "control" ∈ ex1.variants.map Prod.fst
  ∧ (∃ l, calculate_statistical_significance chi2p0 reg1 [] "exp1" "conversion_rate" = .ok l
      ∧ l.length = (ex1.variants.filter (fun v => v.1 ≠ "control")).length
      ∧ l ≠ [])
  ∧ calculate_statistical_significance (fun _ => .error "ValueError") reg1 [] "exp1"
      "conversion_rate" = .error "ValueError" :=
  ⟨by with_unfolding_all rfl, by decide, by decide, by decide,
    (significance_entries_per_variant reg1 [] "exp1" ex1
      (by with_unfolding_all rfl) (by decide) (by decide) (by decide)).1 chi2p0
      (fun t => ⟨(0, 0), rfl⟩),
    (significance_entries_per_variant reg1 [] "exp1" ex1
      (by with_unfolding_all rfl) (by decide) (by decide) (by decide)).2 "ValueError"⟩

/-- C2 counterexample: experiment "exp1" has two registered variants and
NO recorded events — zero variants with recorded events — yet the
significance computation returns a non-empty result (one entry, for
"variant_a") rather than the empty result the claim requires.  The
chi-square call is `chi2Guard`, which matches scipy here: on the
all-zero table of an event-less experiment scipy does not raise (it
returns nan statistics; the statement asserts nothing about the returned
numbers, only that the result is a non-empty success). -/
theorem significance_nonempty_without_events :
    (∃ l, calculate_statistical_significance chi2Guard reg1 [] "exp1" "conversion_rate" = .ok l
      ∧ l.length = 1)
  ∧ calculate_statistical_significance chi2Guard reg1 [] "exp1" "conversion_rate" ≠ .ok [] := by
  refine ⟨⟨[("variant_a", sigEntry zeroMetrics "conversion_rate" zeroMetrics (0, 0))],
    ?_, rfl⟩, ?_⟩
  · with_unfolding_all rfl
  · with_unfolding_all decide

end RecEngine
